import Mathlib

/-!
Shallow embedding of the bill-record persistence layer of this repository:
the two localStorage-backed modules `src/utils/billStorage.js` (Store A,
key `saved_bills`) and `src/utils/billstorage2.js` (Store B, key
`saved_bills02`).  Both modules are structurally identical except for the
record shape and the pre-insert duplicate check of Store B, so the common
operations are embedded once, generically in the caller-supplied part of
the record, and instantiated twice.

Host primitives used by the source are modelled explicitly:
JavaScript `Number.prototype.toString` (decimal) as `jsNatToString`,
`String.prototype.padStart` as `padStart`, `Array.prototype.findIndex`
as `jsFindIndex` (with the `-1` sentinel rendered as `none`),
`Array.prototype.splice(i, 1)` as `List.eraseIdx`, in-place element
assignment as `List.set`, `Array.prototype.find`/`some` as
`List.find?`/`List.any`, and `String.prototype.toLowerCase` as
`String.toLower`.  Clock reads (`Date.now()`, `getFullYear()`,
`toISOString()`) are passed in as explicit parameters.
-/

namespace Billing

/-- The decimal digit character for `n < 10` (JS digit output); the
catch-all arm is never reached by `natDigits`. -/
def digitChar : Nat → Char
  | 0 => '0' | 1 => '1' | 2 => '2' | 3 => '3' | 4 => '4'
  | 5 => '5' | 6 => '6' | 7 => '7' | 8 => '8' | 9 => '9'
  | _ => '?'

/-- Fuel-driven decimal digit expansion (most significant digit first). -/
def natDigitsFuel : Nat → Nat → List Char
  | 0, _ => []
  | fuel + 1, n =>
    if n < 10 then [digitChar n]
    else natDigitsFuel fuel (n / 10) ++ [digitChar (n % 10)]

/-- Decimal digits of `n`, most significant first; `n + 1` fuel always
suffices since the digit count of `n` is at most `n + 1`. -/
def natDigits (n : Nat) : List Char := natDigitsFuel (n + 1) n

/-- Model of JS `Number.prototype.toString` on a nonnegative integer. -/
def jsNatToString (n : Nat) : String := ⟨natDigits n⟩

/-- Model of JS `String.prototype.padStart(n, c)`: pad on the left up to
length `n`, never truncating. -/
def padStart (s : String) (n : Nat) (c : Char) : String :=
  if n ≤ s.data.length then s else ⟨List.replicate (n - s.data.length) c ++ s.data⟩

/-- Decimal value of a digit string (used to read a sequence number back
out of a generated invoice number). -/
def digitsToNat (cs : List Char) : Nat :=
  cs.foldl (fun a c => a * 10 + (c.toNat - 48)) 0

/-- Model of JS `String.prototype.toLowerCase`, character-wise (the inputs
of interest are ASCII, where the two agree). -/
def jsToLower (s : String) : String := ⟨s.data.map Char.toLower⟩

/-- Model of JS `Array.prototype.findIndex`: index of the first element
satisfying `p`, with the JS `-1` sentinel rendered as `none`. -/
def jsFindIndex (p : α → Bool) : List α → Option Nat
  | [] => none
  | a :: as => if p a then some 0 else (jsFindIndex p as).map (· + 1)

theorem natDigitsFuel_congr :
    ∀ f₁ : Nat, ∀ f₂ n : Nat, n < f₁ → n < f₂ →
      natDigitsFuel f₁ n = natDigitsFuel f₂ n := by
  intro f₁
  induction f₁ with
  | zero => intro f₂ n h₁ _; omega
  | succ f ih =>
    intro f₂ n h₁ h₂
    match f₂, h₂ with
    | g + 1, h₂ =>
      simp only [natDigitsFuel]
      by_cases hn : n < 10
      · simp [hn]
      · simp only [hn, if_false]
        have hdiv : n / 10 < n := Nat.div_lt_self (by omega) (by omega)
        rw [ih g (n / 10) (by omega) (by omega)]

/-- Unfolding equation for `natDigits` free of the fuel argument. -/
theorem natDigits_eq (n : Nat) :
    natDigits n =
      if n < 10 then [digitChar n]
      else natDigits (n / 10) ++ [digitChar (n % 10)] := by
  show natDigitsFuel (n + 1) n = _
  simp only [natDigitsFuel]
  by_cases hn : n < 10
  · simp [hn]
  · simp only [hn, if_false]
    have hdiv : n / 10 < n := Nat.div_lt_self (by omega) (by omega)
    rw [natDigitsFuel_congr n (n / 10 + 1) (n / 10) (by omega) (by omega)]
    rfl

theorem digitChar_isDigit {d : Nat} (h : d < 10) : (digitChar d).isDigit = true := by
  interval_cases d <;> decide

theorem digitChar_toNat {d : Nat} (h : d < 10) : (digitChar d).toNat = 48 + d := by
  interval_cases d <;> decide

theorem natDigits_all_isDigit : ∀ n : Nat, ∀ c ∈ natDigits n, c.isDigit = true := by
  intro n
  induction n using Nat.strong_induction_on with
  | _ n ih =>
    intro c hc
    rw [natDigits_eq] at hc
    by_cases hn : n < 10
    · simp only [hn, if_true, List.mem_singleton] at hc
      subst hc; exact digitChar_isDigit hn
    · simp only [hn, if_false, List.mem_append, List.mem_singleton] at hc
      rcases hc with hc | hc
      · exact ih (n / 10) (Nat.div_lt_self (by omega) (by omega)) c hc
      · subst hc; exact digitChar_isDigit (Nat.mod_lt n (by omega))

theorem natDigits_length_pos (n : Nat) : 0 < (natDigits n).length := by
  rw [natDigits_eq]
  by_cases hn : n < 10 <;> simp [hn]

theorem natDigits_length_lt10 {n : Nat} (h : n < 10) : (natDigits n).length = 1 := by
  rw [natDigits_eq]; simp [h]

theorem natDigits_length_step {n : Nat} (h : 10 ≤ n) :
    (natDigits n).length = (natDigits (n / 10)).length + 1 := by
  rw [natDigits_eq]
  simp [Nat.not_lt.mpr h]

theorem natDigits_length_le :
    ∀ k : Nat, ∀ n : Nat, n < 10 ^ (k + 1) → (natDigits n).length ≤ k + 1 := by
  intro k
  induction k with
  | zero =>
    intro n h
    have h10 : n < 10 := by simpa using h
    rw [natDigits_length_lt10 h10]
  -- the `succ` case lowers to the bound on `n / 10`
  | succ k ih =>
    intro n h
    by_cases hn : n < 10
    · rw [natDigits_length_lt10 hn]; omega
    · rw [natDigits_length_step (by omega)]
      have hdiv : n / 10 < 10 ^ (k + 1) := by
        rw [Nat.div_lt_iff_lt_mul (by omega)]
        calc n < 10 ^ (k + 2) := h
        _ = 10 ^ (k + 1) * 10 := by ring
      have := ih (n / 10) hdiv
      omega

theorem natDigits_length_ge :
    ∀ k : Nat, ∀ n : Nat, 10 ^ k ≤ n → k + 1 ≤ (natDigits n).length := by
  intro k
  induction k with
  | zero =>
    intro n _
    have := natDigits_length_pos n
    omega
  | succ k ih =>
    intro n h
    have h10 : 10 ≤ n := by
      calc 10 = 10 ^ 1 := (pow_one 10).symm
      _ ≤ 10 ^ (k + 1) := Nat.pow_le_pow_right (by omega) (by omega)
      _ ≤ n := h
    rw [natDigits_length_step h10]
    have hdiv : 10 ^ k ≤ n / 10 := by
      rw [Nat.le_div_iff_mul_le (by omega)]
      calc 10 ^ k * 10 = 10 ^ (k + 1) := by ring
      _ ≤ n := h
    have := ih (n / 10) hdiv
    omega

theorem digitsToNat_append_singleton (cs : List Char) (c : Char) :
    digitsToNat (cs ++ [c]) = digitsToNat cs * 10 + (c.toNat - 48) := by
  simp [digitsToNat, List.foldl_append]

theorem digitsToNat_natDigits : ∀ n : Nat, digitsToNat (natDigits n) = n := by
  intro n
  induction n using Nat.strong_induction_on with
  | _ n ih =>
    rw [natDigits_eq]
    by_cases hn : n < 10
    · simp only [hn, if_true, digitsToNat, List.foldl_cons, List.foldl_nil]
      rw [digitChar_toNat hn]
      omega
    · simp only [hn, if_false]
      rw [digitsToNat_append_singleton,
        ih (n / 10) (Nat.div_lt_self (by omega) (by omega)),
        digitChar_toNat (Nat.mod_lt n (by omega))]
      omega

theorem digitsToNat_replicate_zero_append (k : Nat) (cs : List Char) :
    digitsToNat (List.replicate k '0' ++ cs) = digitsToNat cs := by
  induction k with
  | zero => simp
  | succ k ih =>
    have : List.replicate (k + 1) '0' ++ cs = '0' :: (List.replicate k '0' ++ cs) := by
      simp [List.replicate_succ]
    rw [this]
    simpa [digitsToNat] using ih

theorem jsFindIndex_eq_none_iff (p : α → Bool) :
    ∀ l : List α, jsFindIndex p l = none ↔ ∀ a ∈ l, p a = false := by
  intro l
  induction l with
  | nil => simp [jsFindIndex]
  | cons a as ih =>
    cases hpa : p a with
    | true => simp [jsFindIndex, hpa]
    | false => simp [jsFindIndex, hpa, ih]

theorem jsFindIndex_spec (p : α → Bool) :
    ∀ l : List α, ∀ i : Nat, jsFindIndex p l = some i →
      ∃ a, l[i]? = some a ∧ p a = true ∧ ∀ b ∈ l.take i, p b = false := by
  intro l
  induction l with
  | nil => intro i h; simp [jsFindIndex] at h
  | cons a as ih =>
    intro i h
    cases hpa : p a with
    | true =>
      rw [jsFindIndex, hpa, if_pos rfl] at h
      cases h
      exact ⟨a, by simp, hpa, by simp⟩
    | false =>
      rw [jsFindIndex, hpa] at h
      simp only [Bool.false_eq_true, if_false, Option.map_eq_some'] at h
      obtain ⟨j, hj, rfl⟩ := h
      obtain ⟨b, hb, hpb, htake⟩ := ih j hj
      refine ⟨b, by simpa using hb, hpb, ?_⟩
      intro c hc
      simp only [List.take_succ_cons, List.mem_cons] at hc
      rcases hc with hc | hc
      · subst hc; exact hpa
      · exact htake c hc

theorem jsFindIndex_isSome_of_mem (p : α → Bool) (l : List α) (a : α)
    (ha : a ∈ l) (hpa : p a = true) : ∃ i, jsFindIndex p l = some i := by
  rcases h : jsFindIndex p l with _ | i
  · rw [jsFindIndex_eq_none_iff] at h
    rw [h a ha] at hpa
    exact absurd hpa (by simp)
  · exact ⟨i, rfl⟩

theorem take_len_append (l₁ l₂ : List α) : (l₁ ++ l₂).take l₁.length = l₁ :=
  List.take_left l₁ l₂

theorem drop_len_append (l₁ l₂ : List α) : (l₁ ++ l₂).drop l₁.length = l₂ :=
  List.drop_left l₁ l₂

theorem data_append (s t : String) : (s ++ t).data = s.data ++ t.data := rfl

/-! Data model.

`billStorage.js` documents its record shape as the `SavedBill` typedef: the
caller-supplied fields (embedded here as `BillData`, including the line
items `additionalItems`) plus the generated fields `id`, `invoiceNumber`,
`status`, `createdAt` and the optional `updatedAt` added by the mutating
operations.  `billstorage2.js` documents the reduced `SavedBill2` shape
(`BillData2`).  The generated part is common, so a record is `BillG δ`
with `δ` the caller-supplied part, and `Bill = BillG BillData`,
`Bill2 = BillG BillData2`. -/

/-- One line item of a Store A bill (`additionalItems` entry of the
`SavedBill` typedef). -/
structure BillItem where
  sno : String
  name : String
  hsn : String
  units : String
  price : String
  gst : String
  cgst : String
  sgst : String
  totalAmount : String
  quantityType : String
deriving DecidableEq

/-- Caller-supplied fields of a Store A bill (`SavedBill` minus the
generated fields). -/
structure BillData where
  billtype : String
  customer : String
  address : String
  city : String
  state : String
  gstno : String
  invoice : String
  date : String
  additionalItems : List BillItem
  notes : String
  subtotal : String
  taxAmount : String
  total : String
deriving DecidableEq

/-- Caller-supplied fields of a Store B bill (`SavedBill2` minus the
generated fields). -/
structure BillData2 where
  customer : String
  address : String
  city : String
  state : String
  gstno : String
  invoice : String
deriving DecidableEq

/-- A stored bill record: caller-supplied part `data` plus the fields
generated by `saveBill`/`saveBill2` and the `updatedAt` key that mutating
operations add (absent, i.e. `none`, until the first mutation). -/
structure BillG (δ : Type) where
  data : δ
  id : String
  invoiceNumber : String
  status : String
  createdAt : String
  updatedAt : Option String
deriving DecidableEq

abbrev Bill := BillG BillData

abbrev Bill2 := BillG BillData2

/-- A caller-supplied update payload for Store A: each field the caller may
put in the object literal, `none` when the key is absent.  Spreading
`{...existing, ...data}` keeps the existing value exactly for absent keys. -/
structure BillDataPatch where
  billtype : Option String := none
  customer : Option String := none
  address : Option String := none
  city : Option String := none
  state : Option String := none
  gstno : Option String := none
  invoice : Option String := none
  date : Option String := none
  additionalItems : Option (List BillItem) := none
  notes : Option String := none
  subtotal : Option String := none
  taxAmount : Option String := none
  total : Option String := none
deriving DecidableEq

/-- A caller-supplied update payload for Store B. -/
structure BillData2Patch where
  customer : Option String := none
  address : Option String := none
  city : Option String := none
  state : Option String := none
  gstno : Option String := none
  invoice : Option String := none
deriving DecidableEq

/-- An update payload over the full record shape: the caller may also put
`id`, `invoiceNumber`, `status`, `createdAt`, `updatedAt` keys in the
object passed to `updateBill`; the spread lets them through before the
explicit restores. -/
structure PatchG (π : Type) where
  data : π
  id : Option String := none
  invoiceNumber : Option String := none
  status : Option String := none
  createdAt : Option String := none
  updatedAt : Option String := none
deriving DecidableEq

abbrev BillPatch := PatchG BillDataPatch

abbrev Bill2Patch := PatchG BillData2Patch

/-- Key-wise merge of a Store A payload over existing caller fields
(the `{...existingBill, ...billData}` spread restricted to `BillData`). -/
def mergeBillData (e : BillData) (p : BillDataPatch) : BillData where
  billtype := p.billtype.getD e.billtype
  customer := p.customer.getD e.customer
  address := p.address.getD e.address
  city := p.city.getD e.city
  state := p.state.getD e.state
  gstno := p.gstno.getD e.gstno
  invoice := p.invoice.getD e.invoice
  date := p.date.getD e.date
  additionalItems := p.additionalItems.getD e.additionalItems
  notes := p.notes.getD e.notes
  subtotal := p.subtotal.getD e.subtotal
  taxAmount := p.taxAmount.getD e.taxAmount
  total := p.total.getD e.total

/-- Key-wise merge of a Store B payload over existing caller fields. -/
def mergeBillData2 (e : BillData2) (p : BillData2Patch) : BillData2 where
  customer := p.customer.getD e.customer
  address := p.address.getD e.address
  city := p.city.getD e.city
  state := p.state.getD e.state
  gstno := p.gstno.getD e.gstno
  invoice := p.invoice.getD e.invoice

/-- The `{...existingBill, ...billData}` spread over the full record. -/
def mergeBillG (mergeData : δ → π → δ) (e : BillG δ) (p : PatchG π) : BillG δ where
  data := mergeData e.data p.data
  id := p.id.getD e.id
  invoiceNumber := p.invoiceNumber.getD e.invoiceNumber
  status := p.status.getD e.status
  createdAt := p.createdAt.getD e.createdAt
  updatedAt := match p.updatedAt with
    | some u => some u
    | none => e.updatedAt

/-! Operations.  Each operation reads the whole array, transforms it and
writes it back; since `JSON.parse` inverts `JSON.stringify` on these
records, the operations are embedded as functions on the decoded array.
Clock reads are explicit parameters: `nowMs` for `Date.now()`, `year` for
`new Date().getFullYear()`, `isoNow` for `new Date().toISOString()`. -/

/-- The generated invoice number
`INV-${year}-${(bills.length + 1).toString().padStart(3, '0')}`
(`billStorage.js` line 30, `billstorage2.js` line 35). -/
def mkInvoiceNumber (year count : Nat) : String :=
  "INV-" ++ jsNatToString year ++ "-" ++ padStart (jsNatToString (count + 1)) 3 '0'

/-- Common body of the two save operations: build the new record from the
payload plus the generated fields and push it onto the array
(`billStorage.js` lines 30-42, `billstorage2.js` lines 35-47).  Returns
the created record and the array that is persisted. -/
def saveG (bills : List (BillG δ)) (billData : δ) (nowMs year : Nat)
    (isoNow : String) : BillG δ × List (BillG δ) :=
  let newBill : BillG δ :=
    { data := billData
      id := jsNatToString nowMs
      invoiceNumber := mkInvoiceNumber year bills.length
      status := "Pending"
      createdAt := isoNow
      updatedAt := none }
  (newBill, bills ++ [newBill])

/-- `saveBill` of `billStorage.js` (lines 28-43). -/
def saveBill (bills : List Bill) (billData : BillData) (nowMs year : Nat)
    (isoNow : String) : Bill × List Bill :=
  saveG bills billData nowMs year isoNow

/-- The duplicate predicate of `saveBill2` (`billstorage2.js` lines 24-29):
case-insensitive equality on customer, address and city, exact equality on
the invoice reference. -/
def isDuplicate2 (b : Bill2) (billData : BillData2) : Bool :=
  jsToLower b.data.customer == jsToLower billData.customer &&
  jsToLower b.data.address == jsToLower billData.address &&
  jsToLower b.data.city == jsToLower billData.city &&
  b.data.invoice == billData.invoice

/-- Message of the `Error` thrown by `saveBill2` on a duplicate. -/
def duplicateMsg : String :=
  "Bill with same customer details and invoice number already exists"

/-- Message of the `Error` thrown by `updateBill`/`updateBill2` on a
missing id. -/
def notFoundMsg : String := "Bill not found"

/-- `saveBill2` of `billstorage2.js` (lines 20-48): the duplicate check
runs first and throws before any field is generated and before the array
is touched; otherwise the save proceeds exactly as in Store A. -/
def saveBill2 (bills : List Bill2) (billData : BillData2) (nowMs year : Nat)
    (isoNow : String) : Except String (Bill2 × List Bill2) :=
  if bills.any (fun b => isDuplicate2 b billData) then .error duplicateMsg
  else .ok (saveG bills billData nowMs year isoNow)

/-- The persisted array after a `saveBill2` call: the storage key is
written (line 46) only on the success path, so a thrown duplicate error
leaves the previous array in place. -/
def saveBill2After (bills : List Bill2) (billData : BillData2) (nowMs year : Nat)
    (isoNow : String) : List Bill2 :=
  match saveBill2 bills billData nowMs year isoNow with
  | .error _ => bills
  | .ok (_, bs) => bs

/-- The updated record built by `updateBill`/`updateBill2`: the payload is
spread over the existing record, then `id`, `invoiceNumber` and
`createdAt` are restored from the existing record and `updatedAt` is set
to the current time (`billStorage.js` lines 59-67). -/
def applyUpdate (mergeData : δ → π → δ) (existingBill : BillG δ) (p : PatchG π)
    (isoNow : String) : BillG δ :=
  let merged := mergeBillG mergeData existingBill p
  { merged with
    id := existingBill.id
    invoiceNumber := existingBill.invoiceNumber
    createdAt := existingBill.createdAt
    updatedAt := some isoNow }

/-- Common body of the two update operations (`billStorage.js` lines 51-72,
`billstorage2.js` lines 56-77): find the record by id, throw when the
index is `-1`, otherwise replace slot `i` with the merged record and
persist.  The inner `none` arm is unreachable: an index returned by
`findIndex` is in bounds. -/
def updateBillG (mergeData : δ → π → δ) (bills : List (BillG δ)) (id : String)
    (billData : PatchG π) (isoNow : String) :
    Except String (BillG δ × List (BillG δ)) :=
  match jsFindIndex (fun b => b.id == id) bills with
  | none => .error notFoundMsg
  | some i =>
    match bills[i]? with
    | none => .error notFoundMsg
    | some existingBill =>
      let updatedBill := applyUpdate mergeData existingBill billData isoNow
      .ok (updatedBill, bills.set i updatedBill)

/-- `updateBill` of `billStorage.js` (lines 51-72). -/
def updateBill (bills : List Bill) (id : String) (billData : BillPatch)
    (isoNow : String) : Except String (Bill × List Bill) :=
  updateBillG mergeBillData bills id billData isoNow

/-- `updateBill2` of `billstorage2.js` (lines 56-77). -/
def updateBill2 (bills : List Bill2) (id : String) (billData : Bill2Patch)
    (isoNow : String) : Except String (Bill2 × List Bill2) :=
  updateBillG mergeBillData2 bills id billData isoNow

/-- The persisted Store A array after an `updateBill` call: the storage key
is written (line 70) only after the not-found check has passed. -/
def updateBillAfter (bills : List Bill) (id : String) (billData : BillPatch)
    (isoNow : String) : List Bill :=
  match updateBill bills id billData isoNow with
  | .error _ => bills
  | .ok (_, bs) => bs

/-- The persisted Store B array after an `updateBill2` call. -/
def updateBill2After (bills : List Bill2) (id : String) (billData : Bill2Patch)
    (isoNow : String) : List Bill2 :=
  match updateBill2 bills id billData isoNow with
  | .error _ => bills
  | .ok (_, bs) => bs

/-- Common body of `getBillById`/`getBillById2`: linear search, with the
JS `find(...) || null` rendered as an `Option` (`billStorage.js` lines
88-91, `billstorage2.js` lines 93-96). -/
def getBillByIdG (bills : List (BillG δ)) (id : String) : Option (BillG δ) :=
  bills.find? (fun b => b.id == id)

/-- `getBillById` of `billStorage.js`. -/
def getBillById (bills : List Bill) (id : String) : Option Bill :=
  getBillByIdG bills id

/-- `getBillById2` of `billstorage2.js`. -/
def getBillById2 (bills : List Bill2) (id : String) : Option Bill2 :=
  getBillByIdG bills id

/-- Common body of `updateBillStatus`/`updateBillStatus2` (`billStorage.js`
lines 98-106, `billstorage2.js` lines 103-111): overwrite the status and
stamp `updatedAt` when the id is found; when it is not, the guarded block
is skipped entirely, so no write to the storage key occurs — rendered as
`none`.  `some bs` means the key was written with the array `bs`. -/
def updateBillStatusG (bills : List (BillG δ)) (id stat isoNow : String) :
    Option (List (BillG δ)) :=
  match jsFindIndex (fun b => b.id == id) bills with
  | none => none
  | some i =>
    match bills[i]? with
    | none => none
    | some b => some (bills.set i { b with status := stat, updatedAt := some isoNow })

/-- `updateBillStatus` of `billStorage.js`. -/
def updateBillStatus (bills : List Bill) (id stat isoNow : String) :
    Option (List Bill) :=
  updateBillStatusG bills id stat isoNow

/-- `updateBillStatus2` of `billstorage2.js`. -/
def updateBillStatus2 (bills : List Bill2) (id stat isoNow : String) :
    Option (List Bill2) :=
  updateBillStatusG bills id stat isoNow

/-- Common body of `deleteBill`/`deleteBill2` (`billStorage.js` lines
113-124, `billstorage2.js` lines 118-129): `splice(billIndex, 1)` and
`true` when the id is found, `false` and the untouched array otherwise. -/
def deleteBillG (bills : List (BillG δ)) (id : String) : Bool × List (BillG δ) :=
  match jsFindIndex (fun b => b.id == id) bills with
  | none => (false, bills)
  | some i => (true, bills.eraseIdx i)

/-- `deleteBill` of `billStorage.js`. -/
def deleteBill (bills : List Bill) (id : String) : Bool × List Bill :=
  deleteBillG bills id

/-- `deleteBill2` of `billstorage2.js`. -/
def deleteBill2 (bills : List Bill2) (id : String) : Bool × List Bill2 :=
  deleteBillG bills id

/-! Reading the persisted slot.  `getSavedBills` is
`stored ? JSON.parse(stored) : []` (`billStorage.js` lines 78-81,
`billstorage2.js` lines 83-86).  The slot content is abstracted by the
outcome of the host primitives on it: `localStorage.getItem` yields `null`
(`none`) or a string, a string is falsy exactly when empty, and
`JSON.parse` (per its host specification) either throws on malformed input
or yields a value, which may or may not be an array of records. -/

/-- A string sitting in the storage slot, abstracted by what `JSON.parse`
does with it: `emptyStr` is the empty (falsy) string, `arrayOf bs` parses
to the record array `bs`, `nonArray` parses to some non-array value, and
`invalid` makes `JSON.parse` throw a `SyntaxError`. -/
inductive StoredString (α : Type) where
  | emptyStr : StoredString α
  | arrayOf (bs : List α) : StoredString α
  | nonArray : StoredString α
  | invalid : StoredString α
deriving DecidableEq

/-- Outcome of a `getSavedBills` call: a record array, a parsed non-array
value returned as-is, or a propagated `JSON.parse` exception. -/
inductive GetResult (α : Type) where
  | ok (bs : List α) : GetResult α
  | okNonArray : GetResult α
  | thrown : GetResult α
deriving DecidableEq

/-- Common body of `getSavedBills`/`getSavedBills2`:
`stored ? JSON.parse(stored) : []` with no try/catch around the parse. -/
def getSavedBillsG : Option (StoredString α) → GetResult α
  | none => .ok []
  | some .emptyStr => .ok []
  | some (.arrayOf bs) => .ok bs
  | some .nonArray => .okNonArray
  | some .invalid => .thrown

/-- `getSavedBills` of `billStorage.js` (lines 78-81). -/
def getSavedBills (slot : Option (StoredString Bill)) : GetResult Bill :=
  getSavedBillsG slot

/-- `getSavedBills2` of `billstorage2.js` (lines 83-86). -/
def getSavedBills2 (slot : Option (StoredString Bill2)) : GetResult Bill2 :=
  getSavedBillsG slot

/-! Specification-side predicates and fixtures. -/

/-- The spec's pattern `INV-<4-digit year>-<3-digit zero-padded sequence>`:
the literal prefix, exactly four digit characters, a dash, exactly three
digit characters. -/
def isInvoicePattern (s : String) : Bool :=
  (s.data.length == 12) &&
  (s.data.take 4 == ['I', 'N', 'V', '-']) &&
  ((s.data.drop 4).take 4).all Char.isDigit &&
  ((s.data.drop 8).take 1 == ['-']) &&
  (s.data.drop 9).all Char.isDigit

/-- Decimal value of the year component of a pattern-shaped invoice
number. -/
def invoiceYearVal (s : String) : Nat := digitsToNat ((s.data.drop 4).take 4)

/-- Decimal value of the sequence component of a pattern-shaped invoice
number. -/
def invoiceSeqVal (s : String) : Nat := digitsToNat (s.data.drop 9)

/-- The duplicate condition in the spec's words: case-insensitive equality
of customer, address and city, exact equality of the invoice reference. -/
def DupMatch (b : Bill2) (d : BillData2) : Prop :=
  jsToLower b.data.customer = jsToLower d.customer ∧
  jsToLower b.data.address = jsToLower d.address ∧
  jsToLower b.data.city = jsToLower d.city ∧
  b.data.invoice = d.invoice

instance (b : Bill2) (d : BillData2) : Decidable (DupMatch b d) := by
  unfold DupMatch
  infer_instance

theorem isDuplicate2_iff (b : Bill2) (d : BillData2) :
    isDuplicate2 b d = true ↔ DupMatch b d := by
  simp [isDuplicate2, DupMatch, Bool.and_eq_true, and_assoc]

theorem padStart_data (s : String) (n : Nat) (c : Char) :
    (padStart s n c).data = List.replicate (n - s.data.length) c ++ s.data := by
  unfold padStart
  split
  · rename_i hn
    have he : n - s.data.length = 0 := Nat.sub_eq_zero_of_le hn
    rw [he]
    rfl
  · rfl

theorem padStart_length {s : String} {n : Nat} {c : Char}
    (h : s.data.length ≤ n) : (padStart s n c).data.length = n := by
  rw [padStart_data]
  simp only [List.length_append, List.length_replicate]
  omega

theorem mkInvoiceNumber_data (year count : Nat) :
    (mkInvoiceNumber year count).data =
      ['I', 'N', 'V', '-'] ++ natDigits year ++ ['-'] ++
        (padStart (jsNatToString (count + 1)) 3 '0').data := by
  have h1 : ("INV-" : String).data = ['I', 'N', 'V', '-'] := rfl
  have h2 : ("-" : String).data = ['-'] := rfl
  simp [mkInvoiceNumber, data_append, h1, h2, jsNatToString]

theorem natDigits_year_length {year : Nat} (h1 : 1000 ≤ year)
    (h2 : year < 10000) : (natDigits year).length = 4 := by
  have e1 : (10 : Nat) ^ (3 + 1) = 10000 := by norm_num
  have e2 : (10 : Nat) ^ 3 = 1000 := by norm_num
  have hle := natDigits_length_le 3 year (by rw [e1]; exact h2)
  have hge := natDigits_length_ge 3 year (by rw [e2]; exact h1)
  omega

/-- Decomposition facts for any string of the shape
`INV-` ++ year digits ++ `-` ++ sequence digits. -/
theorem invoice_pattern_of_parts (s : String) (Y P : List Char)
    (hs : s.data = ['I', 'N', 'V', '-'] ++ Y ++ ['-'] ++ P)
    (hY : Y.length = 4) (hP : P.length = 3)
    (hYd : ∀ c ∈ Y, c.isDigit = true) (hPd : ∀ c ∈ P, c.isDigit = true) :
    isInvoicePattern s = true ∧
    s.data.drop 9 = P ∧
    (s.data.drop 4).take 4 = Y := by
  have hflat : ['I', 'N', 'V', '-'] ++ Y ++ ['-'] ++ P
      = ['I', 'N', 'V', '-'] ++ (Y ++ (['-'] ++ P)) := by
    simp [List.append_assoc]
  have hm8 : ['I', 'N', 'V', '-'] ++ Y ++ ['-'] ++ P
      = (['I', 'N', 'V', '-'] ++ Y) ++ (['-'] ++ P) := by
    simp [List.append_assoc]
  have htake4 : (['I', 'N', 'V', '-'] ++ Y ++ ['-'] ++ P).take 4
      = ['I', 'N', 'V', '-'] := by
    rw [hflat]
    have := take_len_append ['I', 'N', 'V', '-'] (Y ++ (['-'] ++ P))
    simp only [List.length_cons, List.length_nil] at this
    exact this
  have hdrop4 : (['I', 'N', 'V', '-'] ++ Y ++ ['-'] ++ P).drop 4
      = Y ++ (['-'] ++ P) := by
    rw [hflat]
    have := drop_len_append ['I', 'N', 'V', '-'] (Y ++ (['-'] ++ P))
    simp only [List.length_cons, List.length_nil] at this
    exact this
  have hdrop8 : (['I', 'N', 'V', '-'] ++ Y ++ ['-'] ++ P).drop 8
      = ['-'] ++ P := by
    rw [hm8, show (8 : Nat) = (['I', 'N', 'V', '-'] ++ Y).length by simp [hY]]
    exact drop_len_append _ _
  have hdrop9 : (['I', 'N', 'V', '-'] ++ Y ++ ['-'] ++ P).drop 9 = P := by
    rw [show (9 : Nat) = (['I', 'N', 'V', '-'] ++ Y ++ ['-']).length by simp [hY]]
    exact drop_len_append _ _
  have hlen12 : (['I', 'N', 'V', '-'] ++ Y ++ ['-'] ++ P).length = 12 := by
    simp [hY, hP]
  have htakeSeq : ((['I', 'N', 'V', '-'] ++ Y ++ ['-'] ++ P).drop 4).take 4
      = Y := by
    rw [hdrop4, show (4 : Nat) = Y.length from hY.symm]
    exact take_len_append Y (['-'] ++ P)
  refine ⟨?_, by rw [hs]; exact hdrop9, by rw [hs]; exact htakeSeq⟩
  simp only [isInvoicePattern, hs, Bool.and_eq_true, beq_iff_eq, List.all_eq_true]
  refine ⟨⟨⟨⟨?_, ?_⟩, ?_⟩, ?_⟩, ?_⟩
  · exact hlen12
  · exact htake4
  · intro c hc
    rw [htakeSeq] at hc
    exact hYd c hc
  · rw [hdrop8]
    rfl
  · intro c hc
    rw [hdrop9] at hc
    exact hPd c hc

theorem padStart_seq_facts {m : Nat} (h : m ≤ 999) :
    (padStart (jsNatToString m) 3 '0').data.length = 3 ∧
    (∀ c ∈ (padStart (jsNatToString m) 3 '0').data, c.isDigit = true) ∧
    digitsToNat (padStart (jsNatToString m) 3 '0').data = m := by
  have hlt : m < 1000 := by omega
  have hlen : (jsNatToString m).data.length ≤ 3 := by
    have e : (10 : Nat) ^ (2 + 1) = 1000 := by norm_num
    have := natDigits_length_le 2 m (by rw [e]; exact hlt)
    simpa [jsNatToString] using this
  have hdd : (jsNatToString m).data = natDigits m := rfl
  refine ⟨padStart_length hlen, ?_, ?_⟩
  · rw [padStart_data]
    intro c hc
    rcases List.mem_append.mp hc with hc | hc
    · rw [List.eq_of_mem_replicate hc]
      decide
    · rw [hdd] at hc
      exact natDigits_all_isDigit m c hc
  · rw [padStart_data, hdd, digitsToNat_replicate_zero_append, digitsToNat_natDigits]

/-- Everything the amended invoice-number claim needs about the generated
string, for a 4-digit clock year and a sequence of at most 999. -/
theorem mkInvoiceNumber_spec (year count : Nat) (h1 : 1000 ≤ year)
    (h2 : year < 10000) (h3 : count + 1 ≤ 999) :
    isInvoicePattern (mkInvoiceNumber year count) = true ∧
    invoiceYearVal (mkInvoiceNumber year count) = year ∧
    invoiceSeqVal (mkInvoiceNumber year count) = count + 1 ∧
    (mkInvoiceNumber year count).data.drop 9
      = (padStart (jsNatToString (count + 1)) 3 '0').data := by
  obtain ⟨hPlen, hPd, hPval⟩ := padStart_seq_facts h3
  have hY := natDigits_year_length h1 h2
  have hYd := natDigits_all_isDigit year
  obtain ⟨hpat, hdrop9, htakeSeq⟩ :=
    invoice_pattern_of_parts (mkInvoiceNumber year count) (natDigits year)
      (padStart (jsNatToString (count + 1)) 3 '0').data
      (mkInvoiceNumber_data year count) hY hPlen hYd hPd
  refine ⟨hpat, ?_, ?_, hdrop9⟩
  · rw [invoiceYearVal, htakeSeq]
    exact digitsToNat_natDigits year
  · rw [invoiceSeqVal, hdrop9]
    exact hPval

instance {ε α : Type} [DecidableEq ε] [DecidableEq α] : DecidableEq (Except ε α) :=
  fun a b =>
  match a, b with
  | .error e, .error f => decidable_of_iff (e = f) (by simp)
  | .error _, .ok _ => isFalse (by simp)
  | .ok _, .error _ => isFalse (by simp)
  | .ok a, .ok b => decidable_of_iff (a = b) (by simp)

/-! Concrete fixtures used by witnesses and counterexamples. -/

def dA : BillData where
  billtype := "service"
  customer := "Acme Corp"
  address := "1 Main St"
  city := "Pune"
  state := "MH"
  gstno := "G1"
  invoice := "inv-1"
  date := "2025-01-01"
  additionalItems := []
  notes := ""
  subtotal := "100"
  taxAmount := "18"
  total := "118"

def billA : Bill where
  data := dA
  id := "7"
  invoiceNumber := "INV-2025-001"
  status := "Pending"
  createdAt := "T0"
  updatedAt := none

def dB : BillData2 where
  customer := "Acme Corp"
  address := "1 Main St"
  city := "Pune"
  state := "MH"
  gstno := "G1"
  invoice := "inv-1"

def billB : Bill2 where
  data := dB
  id := "7"
  invoiceNumber := "INV-2025-001"
  status := "Pending"
  createdAt := "T0"
  updatedAt := none

/-- A second Store B payload whose customer string is changed, but only in
case; address, city and invoice are identical to `billB`'s. -/
def dBcase : BillData2 := { dB with customer := "ACME CORP" }

/-- A second Store B payload with a different invoice reference. -/
def dBfresh : BillData2 := { dB with invoice := "inv-2" }

/-- An update payload that tries to overwrite the protected fields and the
customer. -/
def patchA : BillPatch where
  data := { customer := some "New Co" }
  id := some "999"
  invoiceNumber := some "INV-9999-999"
  createdAt := some "TX"
  status := some "Paid"

/-- Store B version of `patchA`. -/
def patchB : Bill2Patch where
  data := { customer := some "New Co" }
  id := some "999"
  invoiceNumber := some "INV-9999-999"
  createdAt := some "TX"
  status := some "Paid"

/-- A Store A array already holding 999 records. -/
def bills999 : List Bill := List.replicate 999 billA

theorem any_isDuplicate2_iff (bills : List Bill2) (d : BillData2) :
    bills.any (fun b => isDuplicate2 b d) = true ↔ ∃ b ∈ bills, DupMatch b d := by
  rw [List.any_eq_true]
  constructor
  · rintro ⟨b, hb, hd⟩
    exact ⟨b, hb, (isDuplicate2_iff b d).mp hd⟩
  · rintro ⟨b, hb, hd⟩
    exact ⟨b, hb, (isDuplicate2_iff b d).mpr hd⟩

/-! The claims. -/

/-- C1 (amended): `saveBill2` raises the duplicate error exactly when some
already-stored record matches the payload case-insensitively on customer,
address and city and exactly on the invoice reference; the check precedes
the write, so a failing save leaves the stored array unchanged; and a
second input that differs from a lone stored record on at least one of the
four fields under that field's comparison (case-insensitive for customer,
address, city; exact for invoice) saves successfully.  (The unamended
claim, that changing any of the four fields suffices, fails for a
case-only change; see the counterexample.) -/
theorem saveBill2_duplicate_contract :
    (∀ (bills : List Bill2) (d : BillData2) (nowMs year : Nat) (isoNow : String),
      saveBill2 bills d nowMs year isoNow = .error duplicateMsg ↔
        ∃ b ∈ bills, DupMatch b d) ∧
    (∀ (bills : List Bill2) (d : BillData2) (nowMs year : Nat) (isoNow : String),
      (∃ b ∈ bills, DupMatch b d) →
        saveBill2After bills d nowMs year isoNow = bills) ∧
    (∀ (b : Bill2) (d : BillData2) (nowMs year : Nat) (isoNow : String),
      (jsToLower b.data.customer ≠ jsToLower d.customer ∨
       jsToLower b.data.address ≠ jsToLower d.address ∨
       jsToLower b.data.city ≠ jsToLower d.city ∨
       b.data.invoice ≠ d.invoice) →
      saveBill2 [b] d nowMs year isoNow = .ok (saveG [b] d nowMs year isoNow)) := by
  refine ⟨?_, ?_, ?_⟩
  · intro bills d nowMs year isoNow
    cases hany : bills.any (fun b => isDuplicate2 b d) with
    | true =>
      simp only [saveBill2, hany, if_true]
      simp only [true_iff, Except.error.injEq]
      exact (any_isDuplicate2_iff bills d).mp hany
    | false =>
      simp only [saveBill2, hany]
      constructor
      · intro h
        simp at h
      · intro hd
        rw [← any_isDuplicate2_iff bills d] at hd
        rw [hany] at hd
        cases hd
  · intro bills d nowMs year isoNow hd
    have hany : bills.any (fun b => isDuplicate2 b d) = true :=
      (any_isDuplicate2_iff bills d).mpr hd
    simp [saveBill2After, saveBill2, hany]
  · intro b d nowMs year isoNow hne
    have hnd : ¬ DupMatch b d := by
      rintro ⟨q1, q2, q3, q4⟩
      rcases hne with h | h | h | h <;> contradiction
    have hfalse : isDuplicate2 b d = false := by
      cases hd : isDuplicate2 b d with
      | false => rfl
      | true => exact absurd ((isDuplicate2_iff b d).mp hd) hnd
    simp [saveBill2, hfalse]

theorem saveBill2_duplicate_contract_witness :
    saveBill2 [billB] dBcase 5 2025 "T1" = .error duplicateMsg ∧
    saveBill2After [billB] dBcase 5 2025 "T1" = [billB] ∧
    saveBill2 [billB] dBfresh 5 2025 "T1" = .ok (saveG [billB] dBfresh 5 2025 "T1") := by
  refine ⟨?_, ?_, ?_⟩
  · exact (saveBill2_duplicate_contract.1 [billB] dBcase 5 2025 "T1").mpr (by decide)
  · exact saveBill2_duplicate_contract.2.1 [billB] dBcase 5 2025 "T1" (by decide)
  · exact saveBill2_duplicate_contract.2.2 billB dBfresh 5 2025 "T1" (by decide)

/-- C1 counterexample: the second payload's customer field is changed
(`"ACME CORP"` instead of `"Acme Corp"`), yet the save still fails,
because the comparison is case-insensitive — so "changing any one of
those four fields makes the save succeed" is false as stated. -/
theorem saveBill2_changed_field_still_fails :
    dBcase.customer ≠ billB.data.customer ∧
    dBcase.address = billB.data.address ∧
    dBcase.city = billB.data.city ∧
    dBcase.invoice = billB.data.invoice ∧
    saveBill2 [billB] dBcase 5 2025 "T1" = .error duplicateMsg := by decide

/-- C2: on an existing id, update returns and persists a record whose
`id`, `invoiceNumber` and `createdAt` are the pre-update record's values
regardless of what the payload supplies for them, whose other fields are
the payload's fields merged over the existing record's, and whose
`updatedAt` is the current time — in both stores. -/
theorem update_preserves_identity_fields :
    (∀ (bills : List Bill) (id : String) (p : BillPatch) (isoNow : String)
        (i : Nat) (e : Bill),
      jsFindIndex (fun b => b.id == id) bills = some i →
      bills[i]? = some e →
      updateBill bills id p isoNow
        = .ok (applyUpdate mergeBillData e p isoNow,
            bills.set i (applyUpdate mergeBillData e p isoNow)) ∧
      (applyUpdate mergeBillData e p isoNow).id = e.id ∧
      (applyUpdate mergeBillData e p isoNow).invoiceNumber = e.invoiceNumber ∧
      (applyUpdate mergeBillData e p isoNow).createdAt = e.createdAt ∧
      (applyUpdate mergeBillData e p isoNow).updatedAt = some isoNow ∧
      (applyUpdate mergeBillData e p isoNow).status = p.status.getD e.status ∧
      (applyUpdate mergeBillData e p isoNow).data.billtype
        = p.data.billtype.getD e.data.billtype ∧
      (applyUpdate mergeBillData e p isoNow).data.customer
        = p.data.customer.getD e.data.customer ∧
      (applyUpdate mergeBillData e p isoNow).data.address
        = p.data.address.getD e.data.address ∧
      (applyUpdate mergeBillData e p isoNow).data.city
        = p.data.city.getD e.data.city ∧
      (applyUpdate mergeBillData e p isoNow).data.state
        = p.data.state.getD e.data.state ∧
      (applyUpdate mergeBillData e p isoNow).data.gstno
        = p.data.gstno.getD e.data.gstno ∧
      (applyUpdate mergeBillData e p isoNow).data.invoice
        = p.data.invoice.getD e.data.invoice ∧
      (applyUpdate mergeBillData e p isoNow).data.date
        = p.data.date.getD e.data.date ∧
      (applyUpdate mergeBillData e p isoNow).data.additionalItems
        = p.data.additionalItems.getD e.data.additionalItems ∧
      (applyUpdate mergeBillData e p isoNow).data.notes
        = p.data.notes.getD e.data.notes ∧
      (applyUpdate mergeBillData e p isoNow).data.subtotal
        = p.data.subtotal.getD e.data.subtotal ∧
      (applyUpdate mergeBillData e p isoNow).data.taxAmount
        = p.data.taxAmount.getD e.data.taxAmount ∧
      (applyUpdate mergeBillData e p isoNow).data.total
        = p.data.total.getD e.data.total) ∧
    (∀ (bills : List Bill2) (id : String) (p : Bill2Patch) (isoNow : String)
        (i : Nat) (e : Bill2),
      jsFindIndex (fun b => b.id == id) bills = some i →
      bills[i]? = some e →
      updateBill2 bills id p isoNow
        = .ok (applyUpdate mergeBillData2 e p isoNow,
            bills.set i (applyUpdate mergeBillData2 e p isoNow)) ∧
      (applyUpdate mergeBillData2 e p isoNow).id = e.id ∧
      (applyUpdate mergeBillData2 e p isoNow).invoiceNumber = e.invoiceNumber ∧
      (applyUpdate mergeBillData2 e p isoNow).createdAt = e.createdAt ∧
      (applyUpdate mergeBillData2 e p isoNow).updatedAt = some isoNow ∧
      (applyUpdate mergeBillData2 e p isoNow).status = p.status.getD e.status ∧
      (applyUpdate mergeBillData2 e p isoNow).data.customer
        = p.data.customer.getD e.data.customer ∧
      (applyUpdate mergeBillData2 e p isoNow).data.address
        = p.data.address.getD e.data.address ∧
      (applyUpdate mergeBillData2 e p isoNow).data.city
        = p.data.city.getD e.data.city ∧
      (applyUpdate mergeBillData2 e p isoNow).data.state
        = p.data.state.getD e.data.state ∧
      (applyUpdate mergeBillData2 e p isoNow).data.gstno
        = p.data.gstno.getD e.data.gstno ∧
      (applyUpdate mergeBillData2 e p isoNow).data.invoice
        = p.data.invoice.getD e.data.invoice) := by
  constructor
  · intro bills id p isoNow i e h1 h2
    refine ⟨?_, rfl, rfl, rfl, rfl, rfl, rfl, rfl, rfl, rfl, rfl, rfl, rfl,
      rfl, rfl, rfl, rfl, rfl, rfl⟩
    simp only [updateBill, updateBillG, h1, h2]
  · intro bills id p isoNow i e h1 h2
    refine ⟨?_, rfl, rfl, rfl, rfl, rfl, rfl, rfl, rfl, rfl, rfl, rfl⟩
    simp only [updateBill2, updateBillG, h1, h2]

theorem update_preserves_identity_fields_witness :
    (∃ u : Bill, updateBill [billA] "7" patchA "T2" = .ok (u, [u]) ∧
      u.id = "7" ∧ u.invoiceNumber = "INV-2025-001" ∧ u.createdAt = "T0" ∧
      u.updatedAt = some "T2" ∧ u.status = "Paid" ∧
      u.data.customer = "New Co" ∧ u.data.city = "Pune") ∧
    (∃ u : Bill2, updateBill2 [billB] "7" patchB "T2" = .ok (u, [u]) ∧
      u.id = "7" ∧ u.invoiceNumber = "INV-2025-001" ∧ u.createdAt = "T0" ∧
      u.updatedAt = some "T2" ∧ u.status = "Paid" ∧
      u.data.customer = "New Co" ∧ u.data.city = "Pune") := by
  constructor
  · obtain ⟨heq, hid, hinv, hcr, hup, hst, _, hcust, _, hcity, _⟩ :=
      update_preserves_identity_fields.1 [billA] "7" patchA "T2" 0 billA
        (by decide) (by decide)
    exact ⟨applyUpdate mergeBillData billA patchA "T2",
      heq, hid, hinv, hcr, hup, hst, hcust, hcity⟩
  · obtain ⟨heq, hid, hinv, hcr, hup, hst, hcust, _, hcity, _⟩ :=
      update_preserves_identity_fields.2 [billB] "7" patchB "T2" 0 billB
        (by decide) (by decide)
    exact ⟨applyUpdate mergeBillData2 billB patchB "T2",
      heq, hid, hinv, hcr, hup, hst, hcust, hcity⟩

theorem jsFindIndex_id_none {δ : Type} (bills : List (BillG δ)) (id : String)
    (h : ∀ b ∈ bills, b.id ≠ id) :
    jsFindIndex (fun b => b.id == id) bills = none := by
  rw [jsFindIndex_eq_none_iff]
  intro b hb
  show (b.id == id) = false
  exact beq_eq_false_iff_ne.mpr (h b hb)

/-- C3: update on an id held by no stored record fails with the not-found
error, and the persisted array after the failed call is exactly the
previous one — in both stores. -/
theorem update_missing_id_fails :
    (∀ (bills : List Bill) (id : String) (p : BillPatch) (isoNow : String),
      (∀ b ∈ bills, b.id ≠ id) →
      updateBill bills id p isoNow = .error notFoundMsg ∧
      updateBillAfter bills id p isoNow = bills) ∧
    (∀ (bills : List Bill2) (id : String) (p : Bill2Patch) (isoNow : String),
      (∀ b ∈ bills, b.id ≠ id) →
      updateBill2 bills id p isoNow = .error notFoundMsg ∧
      updateBill2After bills id p isoNow = bills) := by
  constructor
  · intro bills id p isoNow h
    have hnone := jsFindIndex_id_none bills id h
    constructor
    · simp [updateBill, updateBillG, hnone]
    · simp [updateBillAfter, updateBill, updateBillG, hnone]
  · intro bills id p isoNow h
    have hnone := jsFindIndex_id_none bills id h
    constructor
    · simp [updateBill2, updateBillG, hnone]
    · simp [updateBill2After, updateBill2, updateBillG, hnone]

theorem update_missing_id_fails_witness :
    updateBill [billA] "8" patchA "T2" = .error notFoundMsg ∧
    updateBillAfter [billA] "8" patchA "T2" = [billA] ∧
    updateBill2 [billB] "8" patchB "T2" = .error notFoundMsg ∧
    updateBill2After [billB] "8" patchB "T2" = [billB] := by
  obtain ⟨h1, h2⟩ := update_missing_id_fails.1 [billA] "8" patchA "T2" (by decide)
  obtain ⟨h3, h4⟩ := update_missing_id_fails.2 [billB] "8" patchB "T2" (by decide)
  exact ⟨h1, h2, h3, h4⟩

/-- C6: delete on an id held by no stored record reports `false` and keeps
the array; delete on a held id reports `true` and removes exactly the
first record with that id, keeping all others in order — in both
stores. -/
theorem delete_contract :
    (∀ (bills : List Bill) (id : String),
      (∀ b ∈ bills, b.id ≠ id) → deleteBill bills id = (false, bills)) ∧
    (∀ (bills : List Bill) (id : String),
      (∃ b ∈ bills, b.id = id) →
      ∃ i e, bills[i]? = some e ∧ e.id = id ∧
        (∀ b ∈ bills.take i, b.id ≠ id) ∧
        deleteBill bills id = (true, bills.take i ++ bills.drop (i + 1))) ∧
    (∀ (bills : List Bill2) (id : String),
      (∀ b ∈ bills, b.id ≠ id) → deleteBill2 bills id = (false, bills)) ∧
    (∀ (bills : List Bill2) (id : String),
      (∃ b ∈ bills, b.id = id) →
      ∃ i e, bills[i]? = some e ∧ e.id = id ∧
        (∀ b ∈ bills.take i, b.id ≠ id) ∧
        deleteBill2 bills id = (true, bills.take i ++ bills.drop (i + 1))) := by
  refine ⟨?_, ?_, ?_, ?_⟩
  · intro bills id h
    simp [deleteBill, deleteBillG, jsFindIndex_id_none bills id h]
  · intro bills id hex
    obtain ⟨b, hb, hbid⟩ := hex
    obtain ⟨i, hfind⟩ := jsFindIndex_isSome_of_mem (fun b => b.id == id) bills b hb
      (beq_iff_eq.mpr hbid)
    obtain ⟨e, he, hpe, htake⟩ := jsFindIndex_spec (fun b => b.id == id) bills i hfind
    refine ⟨i, e, he, beq_iff_eq.mp hpe, ?_, ?_⟩
    · intro c hc
      exact beq_eq_false_iff_ne.mp (htake c hc)
    · simp [deleteBill, deleteBillG, hfind, List.eraseIdx_eq_take_drop_succ]
  · intro bills id h
    simp [deleteBill2, deleteBillG, jsFindIndex_id_none bills id h]
  · intro bills id hex
    obtain ⟨b, hb, hbid⟩ := hex
    obtain ⟨i, hfind⟩ := jsFindIndex_isSome_of_mem (fun b => b.id == id) bills b hb
      (beq_iff_eq.mpr hbid)
    obtain ⟨e, he, hpe, htake⟩ := jsFindIndex_spec (fun b => b.id == id) bills i hfind
    refine ⟨i, e, he, beq_iff_eq.mp hpe, ?_, ?_⟩
    · intro c hc
      exact beq_eq_false_iff_ne.mp (htake c hc)
    · simp [deleteBill2, deleteBillG, hfind, List.eraseIdx_eq_take_drop_succ]

theorem delete_contract_witness :
    deleteBill [billA] "9" = (false, [billA]) ∧
    (∃ i e, ([billA] : List Bill)[i]? = some e ∧ e.id = "7" ∧
      (∀ b ∈ ([billA] : List Bill).take i, b.id ≠ "7") ∧
      deleteBill [billA] "7"
        = (true, ([billA] : List Bill).take i ++ ([billA] : List Bill).drop (i + 1))) ∧
    deleteBill2 [billB] "9" = (false, [billB]) ∧
    (∃ i e, ([billB] : List Bill2)[i]? = some e ∧ e.id = "7" ∧
      (∀ b ∈ ([billB] : List Bill2).take i, b.id ≠ "7") ∧
      deleteBill2 [billB] "7"
        = (true, ([billB] : List Bill2).take i ++ ([billB] : List Bill2).drop (i + 1))) := by
  refine ⟨?_, ?_, ?_, ?_⟩
  · exact delete_contract.1 [billA] "9" (by decide)
  · exact delete_contract.2.1 [billA] "7" (by decide)
  · exact delete_contract.2.2.1 [billB] "9" (by decide)
  · exact delete_contract.2.2.2 [billB] "7" (by decide)

/-- C7: status update on an id held by no stored record performs no write
at all — the storage key is not touched, so the persisted store is
byte-for-byte unchanged — in both stores. -/
theorem updateStatus_missing_id_noop :
    (∀ (bills : List Bill) (id stat isoNow : String),
      (∀ b ∈ bills, b.id ≠ id) →
      updateBillStatus bills id stat isoNow = none) ∧
    (∀ (bills : List Bill2) (id stat isoNow : String),
      (∀ b ∈ bills, b.id ≠ id) →
      updateBillStatus2 bills id stat isoNow = none) := by
  constructor
  · intro bills id stat isoNow h
    simp [updateBillStatus, updateBillStatusG, jsFindIndex_id_none bills id h]
  · intro bills id stat isoNow h
    simp [updateBillStatus2, updateBillStatusG, jsFindIndex_id_none bills id h]

theorem updateStatus_missing_id_noop_witness :
    updateBillStatus [billA] "8" "Paid" "T2" = none ∧
    updateBillStatus2 [billB] "8" "Paid" "T2" = none := by
  exact ⟨updateStatus_missing_id_noop.1 [billA] "8" "Paid" "T2" (by decide),
    updateStatus_missing_id_noop.2 [billB] "8" "Paid" "T2" (by decide)⟩

/-- C10: status update does not validate the status argument: any string,
also one outside Paid/Pending/Overdue, is persisted verbatim as the
record's status — in both stores. -/
theorem updateStatus_unvalidated :
    (∀ (bills : List Bill) (id stat isoNow : String) (i : Nat) (e : Bill),
      jsFindIndex (fun b => b.id == id) bills = some i →
      bills[i]? = some e →
      updateBillStatus bills id stat isoNow
        = some (bills.set i { e with status := stat, updatedAt := some isoNow }) ∧
      (bills.set i { e with status := stat, updatedAt := some isoNow })[i]?
        = some { e with status := stat, updatedAt := some isoNow } ∧
      ({ e with status := stat, updatedAt := some isoNow } : Bill).status = stat) ∧
    (∀ (bills : List Bill2) (id stat isoNow : String) (i : Nat) (e : Bill2),
      jsFindIndex (fun b => b.id == id) bills = some i →
      bills[i]? = some e →
      updateBillStatus2 bills id stat isoNow
        = some (bills.set i { e with status := stat, updatedAt := some isoNow }) ∧
      (bills.set i { e with status := stat, updatedAt := some isoNow })[i]?
        = some { e with status := stat, updatedAt := some isoNow } ∧
      ({ e with status := stat, updatedAt := some isoNow } : Bill2).status = stat) := by
  constructor
  · intro bills id stat isoNow i e h1 h2
    obtain ⟨hlt, _⟩ := List.getElem?_eq_some.mp h2
    refine ⟨?_, List.getElem?_set_self hlt, rfl⟩
    simp only [updateBillStatus, updateBillStatusG, h1, h2]
  · intro bills id stat isoNow i e h1 h2
    obtain ⟨hlt, _⟩ := List.getElem?_eq_some.mp h2
    refine ⟨?_, List.getElem?_set_self hlt, rfl⟩
    simp only [updateBillStatus2, updateBillStatusG, h1, h2]

theorem updateStatus_unvalidated_witness :
    updateBillStatus [billA] "7" "Bogus" "T2"
      = some [{ billA with status := "Bogus", updatedAt := some "T2" }] ∧
    updateBillStatus2 [billB] "7" "Bogus" "T2"
      = some [{ billB with status := "Bogus", updatedAt := some "T2" }] := by
  exact ⟨(updateStatus_unvalidated.1 [billA] "7" "Bogus" "T2" 0 billA
      (by decide) (by decide)).1,
    (updateStatus_unvalidated.2 [billB] "7" "Bogus" "T2" 0 billB
      (by decide) (by decide)).1⟩

/-- C8: a save followed by `getBillById` on the id of the record the save
returned yields that record, provided no record already stored carries the
freshly generated id (the data-model invariant that identifiers are unique
within a store). -/
theorem save_then_getById_roundtrip (bills : List Bill) (d : BillData)
    (nowMs year : Nat) (isoNow : String)
    (hfresh : ∀ b ∈ bills, b.id ≠ jsNatToString nowMs) :
    getBillById (saveBill bills d nowMs year isoNow).2
        (saveBill bills d nowMs year isoNow).1.id
      = some (saveBill bills d nowMs year isoNow).1 := by
  have hnone : List.find? (fun b => b.id == jsNatToString nowMs) bills = none := by
    rw [List.find?_eq_none]
    intro b hb
    simpa using hfresh b hb
  show (bills ++ [(⟨d, jsNatToString nowMs, mkInvoiceNumber year bills.length,
      "Pending", isoNow, none⟩ : Bill)]).find?
      (fun b => b.id == jsNatToString nowMs) = some _
  rw [List.find?_append, hnone]
  simp [List.find?]
  rfl

theorem save_then_getById_roundtrip_witness :
    getBillById (saveBill [billA] dA 5 2025 "T3").2
        (saveBill [billA] dA 5 2025 "T3").1.id
      = some (saveBill [billA] dA 5 2025 "T3").1 :=
  save_then_getById_roundtrip [billA] dA 5 2025 "T3" (by decide)

/-- C9: save is append-only: it builds the new record from the payload plus
generated id, generated invoice number, status `"Pending"` and creation
timestamp, returns it, and persists the previous array with exactly that
record appended — previously stored records unchanged in content and
position.  For Store B this describes the non-duplicate path. -/
theorem save_append_only :
    (∀ (bills : List Bill) (d : BillData) (nowMs year : Nat) (isoNow : String),
      (saveBill bills d nowMs year isoNow).2
        = bills ++ [(saveBill bills d nowMs year isoNow).1] ∧
      ((saveBill bills d nowMs year isoNow).2).take bills.length = bills ∧
      (saveBill bills d nowMs year isoNow).1.data = d ∧
      (saveBill bills d nowMs year isoNow).1.status = "Pending" ∧
      (saveBill bills d nowMs year isoNow).1.id = jsNatToString nowMs ∧
      (saveBill bills d nowMs year isoNow).1.createdAt = isoNow ∧
      (saveBill bills d nowMs year isoNow).1.invoiceNumber
        = mkInvoiceNumber year bills.length ∧
      (saveBill bills d nowMs year isoNow).1.updatedAt = none) ∧
    (∀ (bills : List Bill2) (d : BillData2) (nowMs year : Nat) (isoNow : String),
      (∀ b ∈ bills, isDuplicate2 b d = false) →
      ∃ r, saveBill2 bills d nowMs year isoNow = .ok r ∧
        r.2 = bills ++ [r.1] ∧
        r.2.take bills.length = bills ∧
        r.1.data = d ∧
        r.1.status = "Pending" ∧
        r.1.id = jsNatToString nowMs ∧
        r.1.createdAt = isoNow ∧
        r.1.invoiceNumber = mkInvoiceNumber year bills.length ∧
        r.1.updatedAt = none) := by
  constructor
  · intro bills d nowMs year isoNow
    exact ⟨rfl, take_len_append bills _, rfl, rfl, rfl, rfl, rfl, rfl⟩
  · intro bills d nowMs year isoNow h
    have hany : bills.any (fun b => isDuplicate2 b d) = false :=
      List.any_eq_false.mpr (fun b hb => by simp [h b hb])
    refine ⟨saveG bills d nowMs year isoNow, ?_, rfl, take_len_append bills _,
      rfl, rfl, rfl, rfl, rfl, rfl⟩
    simp [saveBill2, hany]

theorem save_append_only_witness :
    (saveBill [billA] dA 5 2025 "T3").2
      = [billA] ++ [(saveBill [billA] dA 5 2025 "T3").1] ∧
    (∃ r, saveBill2 [billB] dBfresh 5 2025 "T3" = .ok r ∧
      r.2 = [billB] ++ [r.1] ∧ r.1.status = "Pending") := by
  constructor
  · exact (save_append_only.1 [billA] dA 5 2025 "T3").1
  · obtain ⟨r, hok, happ, _, _, hst, _⟩ :=
      save_append_only.2 [billB] dBfresh 5 2025 "T3" (by decide)
    exact ⟨r, hok, happ, hst⟩

/-- C4 (amended): every invoice number generated by save matches
`INV-<4-digit year>-<3-digit zero-padded sequence>` with sequence value
equal to the record count at call time plus one, provided the clock year
has four digits and the count plus one is at most 999; the first save into
an empty store produces sequence `001`.  (Unamended, the claim fails once
the store holds 999 records: `padStart` pads but never truncates, so the
sequence grows to four digits — see the counterexample.) -/
theorem save_invoice_number_format :
    (∀ (bills : List Bill) (d : BillData) (nowMs year : Nat) (isoNow : String),
      1000 ≤ year → year < 10000 → bills.length + 1 ≤ 999 →
      isInvoicePattern (saveBill bills d nowMs year isoNow).1.invoiceNumber
        = true ∧
      invoiceYearVal (saveBill bills d nowMs year isoNow).1.invoiceNumber
        = year ∧
      invoiceSeqVal (saveBill bills d nowMs year isoNow).1.invoiceNumber
        = bills.length + 1) ∧
    (∀ (d : BillData) (nowMs year : Nat) (isoNow : String),
      1000 ≤ year → year < 10000 →
      ((saveBill [] d nowMs year isoNow).1.invoiceNumber).data.drop 9
        = ['0', '0', '1']) ∧
    (∀ (bills : List Bill2) (d : BillData2) (nowMs year : Nat) (isoNow : String)
        (r : Bill2 × List Bill2),
      1000 ≤ year → year < 10000 → bills.length + 1 ≤ 999 →
      saveBill2 bills d nowMs year isoNow = .ok r →
      isInvoicePattern r.1.invoiceNumber = true ∧
      invoiceSeqVal r.1.invoiceNumber = bills.length + 1) := by
  refine ⟨?_, ?_, ?_⟩
  · intro bills d nowMs year isoNow h1 h2 h3
    obtain ⟨hp, hy, hs, _⟩ := mkInvoiceNumber_spec year bills.length h1 h2 h3
    exact ⟨hp, hy, hs⟩
  · intro d nowMs year isoNow h1 h2
    obtain ⟨_, _, _, hdrop⟩ := mkInvoiceNumber_spec year 0 h1 h2 (by omega)
    exact hdrop.trans (by decide)
  · intro bills d nowMs year isoNow r h1 h2 h3 hok
    cases hany : bills.any (fun b => isDuplicate2 b d) with
    | true =>
      simp [saveBill2, hany] at hok
    | false =>
      simp only [saveBill2, hany, Bool.false_eq_true, if_false,
        Except.ok.injEq] at hok
      subst hok
      obtain ⟨hp, _, hs, _⟩ := mkInvoiceNumber_spec year bills.length h1 h2 h3
      exact ⟨hp, hs⟩

theorem save_invoice_number_format_witness :
    isInvoicePattern (saveBill [] dA 5 2025 "T3").1.invoiceNumber = true ∧
    invoiceSeqVal (saveBill [] dA 5 2025 "T3").1.invoiceNumber = 1 ∧
    ((saveBill [] dA 5 2025 "T3").1.invoiceNumber).data.drop 9
      = ['0', '0', '1'] ∧
    isInvoicePattern (saveG [billB] dBfresh 5 2025 "T3").1.invoiceNumber
      = true := by
  obtain ⟨hp, _, hs⟩ :=
    save_invoice_number_format.1 [] dA 5 2025 "T3" (by omega) (by omega) (by simp)
  refine ⟨hp, hs, ?_, ?_⟩
  · exact save_invoice_number_format.2.1 dA 5 2025 "T3" (by omega) (by omega)
  · exact (save_invoice_number_format.2.2 [billB] dBfresh 5 2025 "T3"
      (saveG [billB] dBfresh 5 2025 "T3") (by omega) (by omega) (by simp)
      (by decide)).1

/-- C4 counterexample: with 999 records already stored, the next save
generates `INV-2025-1000`, whose sequence part has four digits, so the
claimed pattern (exactly three digits) does not match every generated
invoice number. -/
theorem save_invoice_number_overflow :
    isInvoicePattern (saveBill bills999 dA 5 2025 "T3").1.invoiceNumber
      = false ∧
    (saveBill bills999 dA 5 2025 "T3").1.invoiceNumber = "INV-2025-1000" := by
  have hlen : bills999.length = 999 := by
    rw [bills999]
    exact List.length_replicate 999 billA
  have h : (saveBill bills999 dA 5 2025 "T3").1.invoiceNumber
      = mkInvoiceNumber 2025 bills999.length := rfl
  rw [h, hlen]
  constructor <;> decide

/-- C5 (amended): `getSavedBills` returns the empty array when the
persisted slot is absent or holds the empty (falsy) string, and returns a
well-formed persisted array as-is; but on a malformed persisted string the
`JSON.parse` exception propagates out (there is no catch), and a parseable
non-array value is returned as-is rather than coerced to an array — in
both stores.  (Unamended, "never fails" is refuted by the malformed case;
see the counterexample.) -/
theorem getAll_malformed_behavior :
    getSavedBills none = .ok [] ∧
    getSavedBills (some .emptyStr) = .ok [] ∧
    (∀ bs : List Bill, getSavedBills (some (.arrayOf bs)) = .ok bs) ∧
    getSavedBills (some .invalid) = .thrown ∧
    getSavedBills (some .nonArray) = .okNonArray ∧
    getSavedBills2 none = .ok [] ∧
    getSavedBills2 (some .emptyStr) = .ok [] ∧
    (∀ bs : List Bill2, getSavedBills2 (some (.arrayOf bs)) = .ok bs) ∧
    getSavedBills2 (some .invalid) = .thrown ∧
    getSavedBills2 (some .nonArray) = .okNonArray :=
  ⟨rfl, rfl, fun _ => rfl, rfl, rfl, rfl, rfl, fun _ => rfl, rfl, rfl⟩

/-- C5 counterexample: a malformed persisted string makes the read throw
(`JSON.parse` raises and nothing catches it), rather than yielding the
empty array — so "getAll never fails" is false as stated. -/
theorem getAll_malformed_throws :
    getSavedBills (some .invalid) = .thrown ∧
    getSavedBills (some .invalid) ≠ .ok [] ∧
    getSavedBills2 (some .invalid) = .thrown ∧
    getSavedBills2 (some .invalid) ≠ .ok [] := by decide

end Billing
